import Mathlib

/-!
Formal model of the Planetaria procedural canvas renderer
(src/components/PlanetCanvas.tsx): star-field generation, the planet
point cloud, the connection lifecycle state machine, the per-frame
update, zoom clamping, and resize safety.

Machine floating-point numbers are modelled by exact rationals (and by
reals for the trigonometric planet geometry).  Every call to the
runtime random source is modelled as an independent symbolic value,
assumed to lie in [0, 1) where a theorem needs it.
-/

namespace Planetaria

/-- Cluster node attached to a star (PlanetCanvas.tsx lines 3-8). -/
structure ClusterNode where
  dx : ℚ
  dy : ℚ
  size : ℚ
  opacityOffset : ℚ
deriving DecidableEq

/-- Star record (PlanetCanvas.tsx lines 10-19). -/
structure Star where
  x : ℚ
  y : ℚ
  z : ℚ
  size : ℚ
  baseOpacity : ℚ
  opacity : ℚ
  twinkleSpeed : ℚ
  clusterNodes : Option (List ClusterNode)
deriving DecidableEq

/-- Connection lifecycle tag (PlanetCanvas.tsx line 25). -/
inductive ConnState where
  | growing
  | holding
  | fading
deriving DecidableEq

/-- Connection between two stars, referenced by index
(PlanetCanvas.tsx lines 21-27). -/
structure Connection where
  startIdx : ℕ
  endIdx : ℕ
  life : ℚ
  state : ConnState
  maxLife : ℚ
deriving DecidableEq

/-- The independent random draws consumed while generating one star
(PlanetCanvas.tsx lines 67-103); each field stands for one
Math.random() call, valued in [0, 1). -/
structure StarRand where
  z : ℚ
  x : ℚ
  y : ℚ
  clusterChance : ℚ
  clusterCount : ℚ
  clusterDx : ℕ → ℚ
  clusterDy : ℕ → ℚ
  clusterSize : ℕ → ℚ
  clusterPhase : ℕ → ℚ
  size : ℚ
  baseOpacity : ℚ
  opacity : ℚ
  twinkleMag : ℚ
  twinkleSign : ℚ

/-- Star count for a width times height surface
(PlanetCanvas.tsx lines 62-63). -/
def starCount (width height : ℚ) : ℕ :=
  min 2500 (max 600 (⌊width * height / 350⌋).toNat)

/-- Generation of a single star from its random draws
(loop body of initStars, PlanetCanvas.tsx lines 67-104). -/
def mkStar (width height : ℚ) (r : StarRand) : Star :=
  let z := r.z * 3.8 + 0.2
  let spreadFactor := 1.5 * z
  let x := (r.x - 0.5) * width * spreadFactor
  let y := (r.y - 0.5) * height * spreadFactor
  let clusterNodes : Option (List ClusterNode) :=
    if r.clusterChance < 0.04 then
      some ((List.range ((⌊r.clusterCount * 3⌋).toNat + 3)).map fun k =>
        { dx := (r.clusterDx k - 0.5) * 40
          dy := (r.clusterDy k - 0.5) * 40
          size := r.clusterSize k * 0.8 + 0.3
          opacityOffset := r.clusterPhase k })
    else none
  { x := x
    y := y
    z := z
    size := r.size * 1.5 + 0.5
    baseOpacity := r.baseOpacity * 0.5 + 0.3
    opacity := r.opacity
    twinkleSpeed := (r.twinkleMag * 0.01 + 0.002) * (if r.twinkleSign > 0.5 then 1 else -1)
    clusterNodes := clusterNodes }

/-- Star field generation (initStars, PlanetCanvas.tsx lines 58-106). -/
def initStars (width height : ℚ) (rand : ℕ → StarRand) : List Star :=
  (List.range (starCount width height)).map fun i => mkStar width height (rand i)

/-- A concrete all-zero random record: Math.random() may return 0. -/
def zeroStarRand : StarRand :=
  { z := 0, x := 0, y := 0, clusterChance := 0, clusterCount := 0
    clusterDx := fun _ => 0, clusterDy := fun _ => 0
    clusterSize := fun _ => 0, clusterPhase := fun _ => 0
    size := 0, baseOpacity := 0, opacity := 0
    twinkleMag := 0, twinkleSign := 0 }

/-- Claim C4: initStars produces exactly
clamp(floor(width*height/350), 600, 2500) stars; a 1000 by 800
surface yields 2285, a 100 by 100 surface yields 600, and a 3000 by
3000 surface yields 2500. -/
theorem initStars_count_spec :
    (∀ (w h : ℚ) (rand : ℕ → StarRand),
      (initStars w h rand).length = min 2500 (max 600 (⌊w * h / 350⌋).toNat)) ∧
    (initStars 1000 800 (fun _ => zeroStarRand)).length = 2285 ∧
    (initStars 100 100 (fun _ => zeroStarRand)).length = 600 ∧
    (initStars 3000 3000 (fun _ => zeroStarRand)).length = 2500 := by
  refine ⟨fun w h rand => by simp [initStars, starCount], ?_, ?_, ?_⟩ <;>
  · simp only [initStars, starCount, List.length_map, List.length_range]
    norm_num <;> decide

/-- Per-frame star drift and recycling (PlanetCanvas.tsx lines 269-289);
rx, ry are the two Math.random() draws used when the star is recycled. -/
def driftStar (w h rx ry : ℚ) (s : Star) : Star :=
  let z := s.z - 0.002
  if z ≤ 0.2 then
    { s with
      z := 4
      x := (rx - 0.5) * w * (1.5 * 4)
      y := (ry - 0.5) * h * (1.5 * 4)
      opacity := 0 }
  else
    { s with z := z }

lemma starCount_pos (w h : ℚ) : 0 < starCount w h := by
  unfold starCount
  exact lt_min (by norm_num) (lt_of_lt_of_le (by norm_num) (le_max_left _ _))

/-- Per-frame twinkle update (PlanetCanvas.tsx lines 391-396). -/
def twinkleStep (s : Star) : Star :=
  let op := s.opacity + s.twinkleSpeed
  { s with
    opacity := op
    twinkleSpeed := if op > 1 ∨ op < 0.2 then -s.twinkleSpeed else s.twinkleSpeed }

/-- Inductive invariant of the twinkle oscillation: either the opacity
is inside the band, or it has overshot a bound by at most one step and
the speed already points back into the band. -/
def twinkleInv (m : ℚ) (s : Star) : Prop :=
  |s.twinkleSpeed| = m ∧
  ((0.2 ≤ s.opacity ∧ s.opacity ≤ 1) ∨
   (1 < s.opacity ∧ s.opacity ≤ 1 + m ∧ s.twinkleSpeed < 0) ∨
   (s.opacity < 0.2 ∧ 0.2 - m ≤ s.opacity ∧ 0 < s.twinkleSpeed))

lemma twinkleInv_step (m : ℚ) (hm : m ≤ 0.8) (s : Star) (h : twinkleInv m s) :
    twinkleInv m (twinkleStep s) := by
  obtain ⟨habs, hcase⟩ := h
  have hub : s.twinkleSpeed ≤ m := le_of_abs_le habs.le
  have hlb : -m ≤ s.twinkleSpeed := neg_le_of_abs_le habs.le
  by_cases hcond : s.opacity + s.twinkleSpeed > 1 ∨ s.opacity + s.twinkleSpeed < 0.2
  · have hstep : twinkleStep s = { s with
        opacity := s.opacity + s.twinkleSpeed
        twinkleSpeed := -s.twinkleSpeed } := by
      simp only [twinkleStep, if_pos hcond]
    rw [hstep]
    unfold twinkleInv
    dsimp only
    rw [abs_neg]
    refine ⟨habs, ?_⟩
    rcases hcase with ⟨h1, h2⟩ | ⟨h1, h2, h3⟩ | ⟨h1, h2, h3⟩
    · rcases hcond with hgt | hlt
      · have hsp : 0 < s.twinkleSpeed := by linarith
        exact Or.inr (Or.inl ⟨hgt, by linarith, by linarith⟩)
      · have hsp : s.twinkleSpeed < 0 := by linarith
        exact Or.inr (Or.inr ⟨hlt, by linarith, by linarith⟩)
    · have hsp : s.twinkleSpeed = -m := by
        rcases abs_cases s.twinkleSpeed with ⟨he, _⟩ | ⟨he, _⟩ <;> linarith
      exfalso
      rcases hcond with hgt | hlt <;> linarith
    · have hsp : s.twinkleSpeed = m := by
        rcases abs_cases s.twinkleSpeed with ⟨he, _⟩ | ⟨he, _⟩ <;> linarith
      exfalso
      rcases hcond with hgt | hlt <;> linarith
  · have hstep : twinkleStep s = { s with
        opacity := s.opacity + s.twinkleSpeed } := by
      simp only [twinkleStep, if_neg hcond]
    push_neg at hcond
    rw [hstep]
    unfold twinkleInv
    dsimp only
    exact ⟨habs, Or.inl ⟨hcond.2, hcond.1⟩⟩

lemma twinkleInv_iterate (m : ℚ) (hm : m ≤ 0.8) (s : Star) (h : twinkleInv m s)
    (n : ℕ) : twinkleInv m (twinkleStep^[n] s) := by
  induction n generalizing s with
  | zero => exact h
  | succ k ih =>
      rw [Function.iterate_succ_apply]
      exact ih (twinkleStep s) (twinkleInv_step m hm s h)

/-- Claim C8 (amended): a star whose opacity starts inside the band
[0.2, 1] stays within one twinkle step of the band forever; the
guarantee does not extend to every initial opacity seeded in [0, 1],
since a star starting below the band — e.g. a recycled star reset to
opacity 0 — may stay below it indefinitely (see the counterexample). -/
theorem twinkle_band_spec (s : Star) (n : ℕ)
    (hm : |s.twinkleSpeed| ≤ 0.012) (h1 : 0.2 ≤ s.opacity) (h2 : s.opacity ≤ 1) :
    0.2 - |s.twinkleSpeed| ≤ (twinkleStep^[n] s).opacity ∧
    (twinkleStep^[n] s).opacity ≤ 1 + |s.twinkleSpeed| := by
  have h := twinkleInv_iterate |s.twinkleSpeed| (by linarith) s ⟨rfl, Or.inl ⟨h1, h2⟩⟩ n
  obtain ⟨habs, hcase⟩ := h
  have hnn : (0 : ℚ) ≤ |s.twinkleSpeed| := abs_nonneg _
  rcases hcase with ⟨a, b⟩ | ⟨a, b, c⟩ | ⟨a, b, c⟩ <;> constructor <;> linarith

/-- A star as produced by recycling: opacity reset to 0, with the
largest sampled twinkle speed magnitude. -/
def recycledStar : Star :=
  { x := 0, y := 0, z := 4, size := 1, baseOpacity := 0.5, opacity := 0
    twinkleSpeed := 0.012, clusterNodes := none }

/-- Claim C8 counterexample: this recycled star (opacity 0, twinkle
speed 0.012) flips its twinkle speed on every update while below the
band, so after 40 updates its opacity is still 0 — far outside
[0.2, 1] even allowing a single twinkle step of overshoot. -/
theorem twinkle_band_cex :
    (twinkleStep^[40] recycledStar).opacity = 0 ∧
    ¬ (0.2 - |recycledStar.twinkleSpeed| ≤ (twinkleStep^[40] recycledStar).opacity) := by
  have habs : |recycledStar.twinkleSpeed| = 0.012 := by
    have he : recycledStar.twinkleSpeed = 0.012 := rfl
    rw [he, abs_of_pos (by norm_num : (0 : ℚ) < 0.012)]
  have hop : (twinkleStep^[40] recycledStar).opacity = 0 := by
    norm_num [Function.iterate_succ_apply', twinkleStep, recycledStar]
  refine ⟨hop, ?_⟩
  rw [habs, hop]
  norm_num

/-- Sample star with mid-band opacity, used to witness the twinkle
band theorem. -/
def bandStar : Star :=
  { x := 0, y := 0, z := 1, size := 1, baseOpacity := 0.5, opacity := 0.5
    twinkleSpeed := 0.01, clusterNodes := none }

theorem twinkle_band_spec_witness :
    0.2 - |bandStar.twinkleSpeed| ≤ (twinkleStep^[3] bandStar).opacity ∧
    (twinkleStep^[3] bandStar).opacity ≤ 1 + |bandStar.twinkleSpeed| :=
  twinkle_band_spec bandStar 3
    (by rw [abs_le]; constructor <;> norm_num [bandStar])
    (by norm_num [bandStar]) (by norm_num [bandStar])

/-- Claim C5 (amended): a freshly generated star's depth lies in
[0.2, 4.0) — it can be exactly 0.2 when the random draw is 0, so the
claimed open lower bound fails at generation time; after every
per-frame drift update the depth lies in (0.2, 4.0], and whenever the
decrement takes the depth to at most 0.2 the star is reset to depth
exactly 4 with opacity 0 and a fresh frustum-consistent position. -/
theorem star_depth_spec :
    (∀ (w h : ℚ) (r : StarRand), 0 ≤ r.z → r.z < 1 →
      0.2 ≤ (mkStar w h r).z ∧ (mkStar w h r).z < 4) ∧
    (∀ (w h rx ry : ℚ) (s : Star), 0.2 ≤ s.z → s.z ≤ 4 →
      0.2 < (driftStar w h rx ry s).z ∧ (driftStar w h rx ry s).z ≤ 4) ∧
    (∀ (w h rx ry : ℚ) (s : Star), s.z - 0.002 ≤ 0.2 →
      (driftStar w h rx ry s).z = 4 ∧ (driftStar w h rx ry s).opacity = 0 ∧
      (driftStar w h rx ry s).x = (rx - 0.5) * w * (1.5 * 4) ∧
      (driftStar w h rx ry s).y = (ry - 0.5) * h * (1.5 * 4)) := by
  refine ⟨fun w h r h0 h1 => ?_, fun w h rx ry s h0 h1 => ?_, fun w h rx ry s h0 => ?_⟩
  · unfold mkStar
    dsimp only
    constructor <;> nlinarith
  · unfold driftStar
    dsimp only
    by_cases hc : s.z - 0.002 ≤ 0.2
    · rw [if_pos hc]
      norm_num
    · rw [if_neg hc]
      push_neg at hc
      constructor <;> dsimp only <;> linarith
  · unfold driftStar
    dsimp only
    rw [if_pos h0]
    norm_num

/-- Claim C5 counterexample: with the random depth draw equal to 0 (a
value Math.random can return) the generated star has depth exactly
0.2, which is outside the claimed interval (0.2, 4.0]. -/
theorem star_depth_generation_cex :
    mkStar 1000 800 zeroStarRand ∈ initStars 1000 800 (fun _ => zeroStarRand) ∧
    (mkStar 1000 800 zeroStarRand).z = 0.2 ∧
    ¬ (0.2 < (mkStar 1000 800 zeroStarRand).z) := by
  refine ⟨?_, ?_, ?_⟩
  · simp only [initStars]
    exact List.mem_map.mpr ⟨0, List.mem_range.mpr (starCount_pos 1000 800), rfl⟩
  · norm_num [mkStar, zeroStarRand]
  · norm_num [mkStar, zeroStarRand]

theorem star_depth_spec_witness :
    (0.2 ≤ (mkStar 1000 800 zeroStarRand).z ∧ (mkStar 1000 800 zeroStarRand).z < 4) :=
  star_depth_spec.1 1000 800 zeroStarRand (by norm_num [zeroStarRand]) (by norm_num [zeroStarRand])

/-- One lifecycle update of a connection, without the removal checks
(PlanetCanvas.tsx lines 335-343). -/
def stepConnLife (c : Connection) : Connection :=
  match c.state with
  | ConnState.growing =>
      let life := c.life + 0.04
      { c with
        life := life
        state := if life ≥ c.maxLife then ConnState.holding else ConnState.growing }
  | ConnState.holding =>
      let life := c.life - 0.005
      { c with
        life := life
        state := if life < c.maxLife * 0.8 then ConnState.fading else ConnState.holding }
  | ConnState.fading =>
      { c with life := c.life - 0.015 }

/-- Full per-frame update of one connection including the removal
checks: death at life ≤ 0 (line 345) and the stale-index existence
check (lines 350-358); none means the connection is spliced out. -/
def updateConnection (stars : List Star) (c : Connection) : Option Connection :=
  let c2 := stepConnLife c
  if c2.life ≤ 0 then none
  else
    match stars.get? c2.startIdx, stars.get? c2.endIdx with
    | some _, some _ => some c2
    | _, _ => none

/-- Per-frame update of the whole connection list (the reverse-order
loop with splice at PlanetCanvas.tsx lines 332-358 preserves the
relative order of survivors, hence filterMap). -/
def stepConnections (stars : List Star) (conns : List Connection) : List Connection :=
  conns.filterMap (updateConnection stars)

/-- Position of a state in the growing → holding → fading order. -/
def stateRank : ConnState → ℕ
  | ConnState.growing => 0
  | ConnState.holding => 1
  | ConnState.fading => 2

lemma stepConnLife_startIdx (c : Connection) : (stepConnLife c).startIdx = c.startIdx := by
  obtain ⟨si, ei, l, st, ml⟩ := c
  cases st <;> rfl

lemma stepConnLife_endIdx (c : Connection) : (stepConnLife c).endIdx = c.endIdx := by
  obtain ⟨si, ei, l, st, ml⟩ := c
  cases st <;> rfl

lemma updateConnection_none_iff (stars : List Star) (c : Connection)
    (h1 : c.startIdx < stars.length) (h2 : c.endIdx < stars.length) :
    updateConnection stars c = none ↔ (stepConnLife c).life ≤ 0 := by
  unfold updateConnection
  dsimp only
  rw [List.get?_eq_get (by rw [stepConnLife_startIdx]; exact h1),
    List.get?_eq_get (by rw [stepConnLife_endIdx]; exact h2)]
  by_cases hd : (stepConnLife c).life ≤ 0
  · simp [hd]
  · simp [hd]

/-- Claim C2: in growing, life increases by exactly 0.04 per frame and
the state flips to holding exactly when the incremented life reaches
maxLife; in holding, life decreases by 0.005 and flips to fading
exactly when the decremented life drops below maxLife times 0.8; in
fading, life decreases by 0.015; transitions are never reversed; while
both star indices are valid a connection is removed exactly when its
updated life is at most 0; and the maxLife 0.8 scenario reaches
holding on the 20th growth tick and not before. -/
theorem connection_lifecycle_spec (c : Connection) :
    (c.state = ConnState.growing →
      (stepConnLife c).life = c.life + 0.04 ∧
      c.life < (stepConnLife c).life ∧
      ((stepConnLife c).state = ConnState.holding ↔ c.maxLife ≤ c.life + 0.04) ∧
      ((stepConnLife c).state = ConnState.holding ∨ (stepConnLife c).state = ConnState.growing)) ∧
    (c.state = ConnState.holding →
      (stepConnLife c).life = c.life - 0.005 ∧
      (stepConnLife c).life ≤ c.life ∧
      ((stepConnLife c).state = ConnState.fading ↔ c.life - 0.005 < c.maxLife * 0.8) ∧
      ((stepConnLife c).state = ConnState.fading ∨ (stepConnLife c).state = ConnState.holding)) ∧
    (c.state = ConnState.fading →
      (stepConnLife c).life = c.life - 0.015 ∧ (stepConnLife c).state = ConnState.fading) ∧
    stateRank c.state ≤ stateRank (stepConnLife c).state ∧
    (∀ stars : List Star, c.startIdx < stars.length → c.endIdx < stars.length →
      (updateConnection stars c = none ↔ (stepConnLife c).life ≤ 0)) ∧
    (stepConnLife^[20]
      { startIdx := 0, endIdx := 1, life := 0, state := ConnState.growing, maxLife := 0.8 }).state
      = ConnState.holding ∧
    (stepConnLife^[19]
      { startIdx := 0, endIdx := 1, life := 0, state := ConnState.growing, maxLife := 0.8 }).state
      = ConnState.growing := by
  refine ⟨?_, ?_, ?_, ?_, fun stars h1 h2 => updateConnection_none_iff stars c h1 h2, ?_, ?_⟩
  · intro hst
    obtain ⟨si, ei, l, st, ml⟩ := c
    subst hst
    unfold stepConnLife
    dsimp only
    by_cases hc : l + 0.04 ≥ ml
    · rw [if_pos hc]
      refine ⟨rfl, by norm_num, ?_, Or.inl rfl⟩
      simp only [true_iff]
      exact hc
    · rw [if_neg hc]
      push_neg at hc
      refine ⟨rfl, by norm_num, ?_, Or.inr rfl⟩
      constructor
      · intro hh
        exact absurd hh (by simp)
      · intro hh
        exact absurd hh (not_le.mpr hc)
  · intro hst
    obtain ⟨si, ei, l, st, ml⟩ := c
    subst hst
    unfold stepConnLife
    dsimp only
    by_cases hc : l - 0.005 < ml * 0.8
    · rw [if_pos hc]
      refine ⟨rfl, by norm_num, ?_, Or.inl rfl⟩
      simp only [true_iff]
      exact hc
    · rw [if_neg hc]
      push_neg at hc
      refine ⟨rfl, by norm_num, ?_, Or.inr rfl⟩
      constructor
      · intro hh
        exact absurd hh (by simp)
      · intro hh
        exact absurd hh (not_lt.mpr hc)
  · intro hst
    obtain ⟨si, ei, l, st, ml⟩ := c
    subst hst
    exact ⟨rfl, rfl⟩
  · obtain ⟨si, ei, l, st, ml⟩ := c
    cases st
    · unfold stepConnLife
      dsimp only
      by_cases hc : l + 0.04 ≥ ml
      · rw [if_pos hc]
        norm_num [stateRank]
      · rw [if_neg hc]
    · unfold stepConnLife
      dsimp only
      by_cases hc : l - 0.005 < ml * 0.8
      · rw [if_pos hc]
        norm_num [stateRank]
      · rw [if_neg hc]
    · exact le_refl _
  · norm_num [Function.iterate_succ_apply', stepConnLife]
  · norm_num [Function.iterate_succ_apply', stepConnLife]

theorem connection_lifecycle_spec_witness :
    (stepConnLife
      { startIdx := 0, endIdx := 1, life := 0.5, state := ConnState.growing, maxLife := 0.8 }).life
      = 0.54 := by
  have h := (connection_lifecycle_spec
    { startIdx := 0, endIdx := 1, life := 0.5, state := ConnState.growing, maxLife := 0.8 }).1 rfl
  rw [h.1]
  norm_num

/-- Index of a randomly picked star: floor(rand * length)
(PlanetCanvas.tsx lines 293 and 301). -/
def candIdx (len : ℕ) (r : ℚ) : ℕ := (⌊r * len⌋).toNat

/-- Squared screen-space distance between two stars in star-field
coordinates (PlanetCanvas.tsx lines 308-310). -/
def sqDist (a b : Star) : ℚ :=
  (a.x - b.x) * (a.x - b.x) + (a.y - b.y) * (a.y - b.y)

/-- Comparison against the running best distance; none plays the role
of the initial Infinity, against which every distance compares less. -/
def ltInf (q : ℚ) : Option ℚ → Bool
  | none => true
  | some d => decide (q < d)

/-- The independent random draws consumed by one connection spawn
attempt (PlanetCanvas.tsx lines 292-325). -/
structure SpawnRand where
  start : ℚ
  cand : ℕ → ℚ
  maxLife : ℚ

/-- One iteration of the candidate search loop
(PlanetCanvas.tsx lines 300-316). -/
def searchStep (stars : List Star) (startIdx : ℕ) (startStar : Star)
    (acc : ℤ × Option ℚ) (rc : ℚ) : ℤ × Option ℚ :=
  let checkIdx := candIdx stars.length rc
  if checkIdx = startIdx then acc
  else
    match stars.get? checkIdx with
    | none => acc
    | some s2 =>
      let dist := sqDist startStar s2
      if dist < 50000 * startStar.z ∧ ltInf dist acc.2 = true ∧ |startStar.z - s2.z| < 0.5
      then ((checkIdx : ℤ), some dist)
      else acc

/-- The 20-iteration candidate search; the accumulator starts at
bestIdx = -1 and bestDist = Infinity. -/
def connSearch (stars : List Star) (startIdx : ℕ) (startStar : Star) (cand : ℕ → ℚ) :
    ℤ × Option ℚ :=
  (List.range 20).foldl (fun acc i => searchStep stars startIdx startStar acc (cand i))
    (-1, none)

/-- Connection spawn attempt (PlanetCanvas.tsx lines 292-328), after
the frame-level 0.03 probability gate has passed. -/
def spawnConnection (stars : List Star) (r : SpawnRand) : Option Connection :=
  let startIdx := candIdx stars.length r.start
  match stars.get? startIdx with
  | none => none
  | some startStar =>
    if startStar.z < 3 ∧ 0.5 < startStar.z then
      let res := connSearch stars startIdx startStar r.cand
      if res.1 ≠ -1 then
        some { startIdx := startIdx
               endIdx := res.1.toNat
               life := 0
               state := ConnState.growing
               maxLife := r.maxLife * 0.4 + 0.6 }
      else none
    else none

/-- Mutable scene state held in refs (PlanetCanvas.tsx lines 43-56);
the planet point cloud is modelled separately because only drawing
reads it. -/
structure RenderState where
  stars : List Star
  connections : List Connection
  zoom : ℚ
  targetZoom : ℚ
  rotation : ℚ
  lookAtX : ℚ
  lookAtY : ℚ
  mouseX : ℚ
  mouseY : ℚ
  lastTouchDist : Option ℚ

/-- Input events consumed by the listeners
(PlanetCanvas.tsx lines 485-528).  Two-finger events carry the
inter-finger distance, which is all the handlers derive from the two
touch points via Math.hypot. -/
inductive InputEvent where
  | mouseMove (x y : ℚ)
  | wheel (deltaY : ℚ)
  | touchStartSingle (x y : ℚ)
  | touchStartPinch (dist : ℚ)
  | touchMoveSingle (x y : ℚ)
  | touchMovePinch (dist : ℚ)
  | touchEnd

/-- Event dispatch (handleMouseMove, handleWheel, handleTouchStart,
handleTouchMove, handleTouchEnd; PlanetCanvas.tsx lines 485-528). -/
def handleEvent (s : RenderState) : InputEvent → RenderState
  | InputEvent.mouseMove x y => { s with mouseX := x, mouseY := y }
  | InputEvent.wheel deltaY =>
      { s with targetZoom := max 0.5 (min 5.0 (s.targetZoom + -deltaY * 0.001)) }
  | InputEvent.touchStartSingle x y => { s with mouseX := x, mouseY := y }
  | InputEvent.touchStartPinch d => { s with lastTouchDist := some d }
  | InputEvent.touchMoveSingle x y => { s with mouseX := x, mouseY := y }
  | InputEvent.touchMovePinch d =>
      match s.lastTouchDist with
      | none => s
      | some prev =>
          { s with
            targetZoom := max 0.5 (min 5.0 (s.targetZoom + (d - prev) * 0.008))
            lastTouchDist := some d }
  | InputEvent.touchEnd => { s with lastTouchDist := none }

/-- Resize handler (PlanetCanvas.tsx lines 466-481): regenerate the
star field, clear the connection list, recenter the pointer.  The
planet point cloud is regenerated as well, modelled by initPlanet
below. -/
def handleResize (w h : ℚ) (rand : ℕ → StarRand) (s : RenderState) : RenderState :=
  { s with
    stars := initStars w h rand
    connections := []
    mouseX := w / 2
    mouseY := h / 2 }

/-- The random draws consumed by one animation frame. -/
structure FrameRand where
  drift : ℕ → ℚ × ℚ
  spawnChance : ℚ
  spawn : SpawnRand

/-- Drift update of the whole star field (PlanetCanvas.tsx
lines 269-289). -/
def driftStars (w h : ℚ) (rand : ℕ → ℚ × ℚ) (stars : List Star) : List Star :=
  stars.enum.map fun p => driftStar w h (rand p.1).1 (rand p.1).2 p.2

/-- One full animation frame body past the guards (PlanetCanvas.tsx
lines 146-460): zoom smoothing, rotation advance, look-at smoothing,
star drift, connection spawn attempt, connection update, twinkle
update.  Drawing has no further state effect. -/
def stepFrame (w h : ℚ) (r : FrameRand) (s : RenderState) : RenderState :=
  let cx := w / 2
  let cy := h / 2 - (if h > w then h * 0.1 else 0)
  let stars1 := driftStars w h r.drift s.stars
  let conns1 :=
    if 0 < stars1.length ∧ r.spawnChance < 0.03 then
      match spawnConnection stars1 r.spawn with
      | some c => s.connections ++ [c]
      | none => s.connections
    else s.connections
  { s with
    zoom := s.zoom + (s.targetZoom - s.zoom) * 0.1
    rotation := s.rotation + 0.002
    lookAtX := s.lookAtX + ((s.mouseX - cx) * 0.05 - s.lookAtX) * 0.05
    lookAtY := s.lookAtY + ((s.mouseY - cy) * 0.05 - s.lookAtY) * 0.05
    stars := stars1.map twinkleStep
    connections := stepConnections stars1 conns1 }

/-- The animation frame callback (PlanetCanvas.tsx lines 140-463).
The two flags model canvasRef.current and canvas.getContext being
usable; the boolean result records whether requestAnimationFrame was
invoked at line 462 to schedule the next frame. -/
def animate (canvasOk ctxOk : Bool) (w h : ℚ) (r : FrameRand) (s : RenderState) :
    RenderState × Bool :=
  if canvasOk = false then (s, false)
  else if ctxOk = false then (s, false)
  else (stepFrame w h r s, true)

/-- A concrete all-zero spawn randomness record. -/
def zeroSpawnRand : SpawnRand := { start := 0, cand := fun _ => 0, maxLife := 0 }

/-- A concrete all-zero frame randomness record. -/
def zeroFrameRand : FrameRand :=
  { drift := fun _ => (0, 0), spawnChance := 0, spawn := zeroSpawnRand }

/-- The scene state as initialized on mount (PlanetCanvas.tsx
lines 43-56). -/
def initialState : RenderState :=
  { stars := []
    connections := []
    zoom := 1
    targetZoom := 1
    rotation := 0
    lookAtX := 0
    lookAtY := 0
    mouseX := 0
    mouseY := 0
    lastTouchDist := none }

lemma handleEvent_zoom_bounds (s : RenderState) (e : InputEvent)
    (h0 : 0.5 ≤ s.targetZoom) (h1 : s.targetZoom ≤ 5) :
    0.5 ≤ (handleEvent s e).targetZoom ∧ (handleEvent s e).targetZoom ≤ 5 := by
  cases e with
  | mouseMove x y => exact ⟨h0, h1⟩
  | wheel d =>
      exact ⟨le_max_left _ _,
        max_le (by norm_num) (le_trans (min_le_left _ _) (by norm_num))⟩
  | touchStartSingle x y => exact ⟨h0, h1⟩
  | touchStartPinch d => exact ⟨h0, h1⟩
  | touchMoveSingle x y => exact ⟨h0, h1⟩
  | touchMovePinch d =>
      cases hl : s.lastTouchDist with
      | none => simp only [handleEvent, hl]; exact ⟨h0, h1⟩
      | some prev =>
          simp only [handleEvent, hl]
          exact ⟨le_max_left _ _,
            max_le (by norm_num) (le_trans (min_le_left _ _) (by norm_num))⟩
  | touchEnd => exact ⟨h0, h1⟩

lemma foldl_zoom_bounds (evs : List InputEvent) (s : RenderState)
    (h0 : 0.5 ≤ s.targetZoom) (h1 : s.targetZoom ≤ 5) :
    0.5 ≤ (evs.foldl handleEvent s).targetZoom ∧ (evs.foldl handleEvent s).targetZoom ≤ 5 := by
  induction evs generalizing s with
  | nil => exact ⟨h0, h1⟩
  | cons e t ih =>
      have h := handleEvent_zoom_bounds s e h0 h1
      exact ih (handleEvent s e) h.1 h.2

/-- Claim C7: starting from the initial target zoom of 1.0, after any
sequence of input events the target zoom lies in [0.5, 5.0]; a wheel
event with deltaY equal to -100 at target 1.0 yields
min 5.0 (1.0 + 0.1) = 1.1. -/
theorem zoom_clamp_spec :
    (∀ evs : List InputEvent,
      0.5 ≤ (evs.foldl handleEvent initialState).targetZoom ∧
      (evs.foldl handleEvent initialState).targetZoom ≤ 5) ∧
    (handleEvent initialState (InputEvent.wheel (-100))).targetZoom = min 5 (1 + 0.1) ∧
    min (5 : ℚ) (1 + 0.1) = 1.1 := by
  refine ⟨fun evs => foldl_zoom_bounds evs initialState (by norm_num [initialState])
    (by norm_num [initialState]), ?_, by norm_num⟩
  norm_num [handleEvent, initialState]

lemma updateConnection_some (stars : List Star) (a c : Connection)
    (h : updateConnection stars a = some c) :
    c = stepConnLife a ∧ c.startIdx < stars.length ∧ c.endIdx < stars.length := by
  unfold updateConnection at h
  dsimp only at h
  by_cases hd : (stepConnLife a).life ≤ 0
  · rw [if_pos hd] at h
    exact absurd h (by simp)
  · rw [if_neg hd] at h
    cases h1 : stars.get? (stepConnLife a).startIdx with
    | none =>
        rw [h1] at h
        exact absurd h (by simp)
    | some s1 =>
        cases h2 : stars.get? (stepConnLife a).endIdx with
        | none =>
            rw [h1, h2] at h
            exact absurd h (by simp)
        | some s2 =>
            rw [h1, h2] at h
            have hc : c = stepConnLife a := (Option.some.inj h).symm
            subst hc
            refine ⟨rfl, ?_, ?_⟩
            · by_contra hlt
              rw [List.get?_eq_none.mpr (le_of_not_lt hlt)] at h1
              exact Option.noConfusion h1
            · by_contra hlt
              rw [List.get?_eq_none.mpr (le_of_not_lt hlt)] at h2
              exact Option.noConfusion h2

/-- Claim C1: every resize clears the connection list; the per-frame
connection update only keeps connections whose star indices are inside
the current star array; and a connection with a stale index is removed
(updateConnection yields none) without any star field being read. -/
theorem resize_connection_safety :
    (∀ (w h : ℚ) (rand : ℕ → StarRand) (s : RenderState),
      (handleResize w h rand s).connections = []) ∧
    (∀ (stars : List Star) (conns : List Connection),
      ∀ c ∈ stepConnections stars conns,
        c.startIdx < stars.length ∧ c.endIdx < stars.length) ∧
    (∀ (stars : List Star) (c : Connection),
      stars.length ≤ c.startIdx ∨ stars.length ≤ c.endIdx →
      updateConnection stars c = none) := by
  refine ⟨fun w h rand s => rfl, ?_, ?_⟩
  · intro stars conns c hc
    obtain ⟨a, _, ha⟩ := List.mem_filterMap.mp hc
    exact (updateConnection_some stars a c ha).2
  · intro stars c hstale
    unfold updateConnection
    dsimp only
    by_cases hd : (stepConnLife c).life ≤ 0
    · rw [if_pos hd]
    · rw [if_neg hd]
      rcases hstale with hs | hs
      · rw [show stars.get? (stepConnLife c).startIdx = none from
          List.get?_eq_none.mpr (by rw [stepConnLife_startIdx]; exact hs)]
      · rw [show stars.get? (stepConnLife c).endIdx = none from
          List.get?_eq_none.mpr (by rw [stepConnLife_endIdx]; exact hs)]
        cases stars.get? (stepConnLife c).startIdx <;> rfl

theorem resize_connection_safety_witness :
    updateConnection ([] : List Star)
      { startIdx := 0, endIdx := 1, life := 0.5, state := ConnState.holding, maxLife := 0.8 }
      = none :=
  resize_connection_safety.2.2 []
    { startIdx := 0, endIdx := 1, life := 0.5, state := ConnState.holding, maxLife := 0.8 }
    (Or.inl (Nat.zero_le 0))

/-- Claim C3 counterexample: when the canvas surface is unavailable
the frame callback returns without scheduling another animation frame
(the early return at line 141 skips the requestAnimationFrame call at
line 462), so the scene does not continue rendering on a next
scheduled frame; the state is indeed left untouched. -/
theorem frame_abort_cex :
    (animate false true 800 600 zeroFrameRand initialState).2 = false ∧
    (animate false true 800 600 zeroFrameRand initialState).1 = initialState :=
  ⟨rfl, rfl⟩

/-- Claim C3 (amended): with the canvas or its context unavailable the
frame callback aborts silently with no state change, but it does not
schedule another animation frame, so rendering does not automatically
resume; when both are available the frame runs and schedules the next
one. -/
theorem frame_abort_spec :
    (∀ (b : Bool) (w h : ℚ) (r : FrameRand) (s : RenderState),
      animate false b w h r s = (s, false)) ∧
    (∀ (w h : ℚ) (r : FrameRand) (s : RenderState),
      animate true false w h r s = (s, false)) ∧
    (∀ (w h : ℚ) (r : FrameRand) (s : RenderState),
      (animate true true w h r s).2 = true) :=
  ⟨fun _ _ _ _ _ => rfl, fun _ _ _ _ => rfl, fun _ _ _ _ => rfl⟩

/-- Distance from the start star to the star at index c, defaulting to
0 when the index is out of range (only used under an existence
hypothesis). -/
def distAt (stars : List Star) (startStar : Star) (c : ℕ) : ℚ :=
  match stars.get? c with
  | some s2 => sqDist startStar s2
  | none => 0

/-- A candidate index qualifies for the connection search: it is not
the start index, refers to an existing star, and meets the distance
and depth-difference conditions of PlanetCanvas.tsx line 312. -/
def qualifies (stars : List Star) (startIdx : ℕ) (startStar : Star) (c : ℕ) : Prop :=
  c ≠ startIdx ∧ ∃ s2, stars.get? c = some s2 ∧
    sqDist startStar s2 < 50000 * startStar.z ∧ |startStar.z - s2.z| < 0.5

/-- Soundness invariant of the search accumulator: either nothing was
kept yet, or the kept index is a qualifying candidate drawn from P
whose recorded distance is its actual distance. -/
def searchGood (stars : List Star) (startIdx : ℕ) (startStar : Star)
    (P : ℕ → Prop) (acc : ℤ × Option ℚ) : Prop :=
  acc = (-1, none) ∨
  ∃ c, P c ∧ qualifies stars startIdx startStar c ∧
    acc.1 = (c : ℤ) ∧ acc.2 = some (distAt stars startStar c)

lemma searchGood_mono {stars : List Star} {startIdx : ℕ} {startStar : Star}
    {P Q : ℕ → Prop} (hPQ : ∀ c, P c → Q c) {acc : ℤ × Option ℚ}
    (h : searchGood stars startIdx startStar P acc) :
    searchGood stars startIdx startStar Q acc := by
  rcases h with h | ⟨c, hP, hq, h1, h2⟩
  · exact Or.inl h
  · exact Or.inr ⟨c, hPQ c hP, hq, h1, h2⟩

lemma searchStep_good (stars : List Star) (startIdx : ℕ) (startStar : Star)
    (P : ℕ → Prop) (acc : ℤ × Option ℚ) (rc : ℚ)
    (h : searchGood stars startIdx startStar P acc) :
    searchGood stars startIdx startStar
      (fun c => P c ∨ c = candIdx stars.length rc)
      (searchStep stars startIdx startStar acc rc) := by
  have hmono := searchGood_mono (Q := fun c => P c ∨ c = candIdx stars.length rc)
    (fun c hc => Or.inl hc) h
  unfold searchStep
  dsimp only
  by_cases he : candIdx stars.length rc = startIdx
  · rw [if_pos he]
    exact hmono
  · rw [if_neg he]
    cases hg : stars.get? (candIdx stars.length rc) with
    | none => exact hmono
    | some s2 =>
        dsimp only
        by_cases hcond : sqDist startStar s2 < 50000 * startStar.z ∧
            ltInf (sqDist startStar s2) acc.2 = true ∧ |startStar.z - s2.z| < 0.5
        · rw [if_pos hcond]
          refine Or.inr ⟨candIdx stars.length rc, Or.inr rfl,
            ⟨he, s2, hg, hcond.1, hcond.2.2⟩, rfl, ?_⟩
          simp only [distAt, hg]
        · rw [if_neg hcond]
          exact hmono

lemma connSearch_foldl_good (stars : List Star) (startIdx : ℕ) (startStar : Star)
    (cand : ℕ → ℚ) :
    ∀ (l : List ℕ) (acc : ℤ × Option ℚ) (P : ℕ → Prop),
      searchGood stars startIdx startStar P acc →
      searchGood stars startIdx startStar
        (fun c => P c ∨ ∃ i ∈ l, c = candIdx stars.length (cand i))
        (l.foldl (fun a i => searchStep stars startIdx startStar a (cand i)) acc)
  | [], acc, P, h => by
      simp only [List.foldl_nil]
      exact searchGood_mono (fun c hc => Or.inl hc) h
  | i :: t, acc, P, h => by
      simp only [List.foldl_cons]
      have h1 := searchStep_good stars startIdx startStar P acc (cand i) h
      have h2 := connSearch_foldl_good stars startIdx startStar cand t _ _ h1
      refine searchGood_mono ?_ h2
      intro c hc
      rcases hc with (hP | hci) | ⟨j, hj, hcj⟩
      · exact Or.inl hP
      · exact Or.inr ⟨i, List.mem_cons_self _ _, hci⟩
      · exact Or.inr ⟨j, List.mem_cons_of_mem _ hj, hcj⟩

/-- The recorded best distance, when present, is at most q. -/
def boundsBy (o : Option ℚ) (q : ℚ) : Prop :=
  match o with
  | none => False
  | some d => d ≤ q

lemma searchStep_bounds_mono (stars : List Star) (startIdx : ℕ) (startStar : Star)
    (acc : ℤ × Option ℚ) (rc : ℚ) (q : ℚ) (h : boundsBy acc.2 q) :
    boundsBy (searchStep stars startIdx startStar acc rc).2 q := by
  cases ha : acc.2 with
  | none => rw [ha] at h; exact absurd h (by simp [boundsBy])
  | some d =>
      rw [ha] at h
      unfold searchStep
      dsimp only
      by_cases he : candIdx stars.length rc = startIdx
      · rw [if_pos he, ha]
        exact h
      · rw [if_neg he]
        cases hg : stars.get? (candIdx stars.length rc) with
        | none => rw [ha]; exact h
        | some s2 =>
            dsimp only
            by_cases hcond : sqDist startStar s2 < 50000 * startStar.z ∧
                ltInf (sqDist startStar s2) acc.2 = true ∧ |startStar.z - s2.z| < 0.5
            · rw [if_pos hcond]
              have hlt : sqDist startStar s2 < d := by
                have := hcond.2.1
                rw [ha] at this
                simpa [ltInf] using this
              simpa [boundsBy] using le_of_lt (lt_of_lt_of_le hlt h)
            · rw [if_neg hcond, ha]
              exact h

lemma searchStep_bounds_qual (stars : List Star) (startIdx : ℕ) (startStar : Star)
    (acc : ℤ × Option ℚ) (rc : ℚ)
    (hq : qualifies stars startIdx startStar (candIdx stars.length rc)) :
    boundsBy (searchStep stars startIdx startStar acc rc).2
      (distAt stars startStar (candIdx stars.length rc)) := by
  obtain ⟨hne, s2, hg, hd, hz⟩ := hq
  unfold searchStep
  dsimp only
  rw [if_neg hne, hg]
  dsimp only
  by_cases hl : ltInf (sqDist startStar s2) acc.2 = true
  · rw [if_pos ⟨hd, hl, hz⟩]
    simp only [boundsBy, distAt, hg, le_refl]
  · rw [if_neg (fun hcond => hl hcond.2.1)]
    cases ha : acc.2 with
    | none => exact absurd (by rw [ha]; rfl) hl
    | some d =>
        have hdl : ¬ sqDist startStar s2 < d := by
          rw [ha] at hl
          simpa [ltInf] using hl
        simp only [boundsBy, distAt, hg, ha]
        exact le_of_not_lt hdl

lemma connSearch_foldl_bounds (stars : List Star) (startIdx : ℕ) (startStar : Star)
    (cand : ℕ → ℚ) :
    ∀ (l : List ℕ) (acc : ℤ × Option ℚ),
      (∀ q, boundsBy acc.2 q →
        boundsBy ((l.foldl (fun a i => searchStep stars startIdx startStar a (cand i)) acc).2) q) ∧
      (∀ i ∈ l, qualifies stars startIdx startStar (candIdx stars.length (cand i)) →
        boundsBy ((l.foldl (fun a i => searchStep stars startIdx startStar a (cand i)) acc).2)
          (distAt stars startStar (candIdx stars.length (cand i))))
  | [], acc => by
      refine ⟨fun q h => by simpa using h, ?_⟩
      intro i hi
      exact absurd hi (List.not_mem_nil i)
  | j :: t, acc => by
      have ih := connSearch_foldl_bounds stars startIdx startStar cand t
        (searchStep stars startIdx startStar acc (cand j))
      refine ⟨?_, ?_⟩
      · intro q h
        simp only [List.foldl_cons]
        exact (ih).1 q (searchStep_bounds_mono stars startIdx startStar acc (cand j) q h)
      · intro i hi hq
        simp only [List.foldl_cons]
        rcases List.mem_cons.mp hi with hij | hit
        · subst hij
          exact (ih).1 _ (searchStep_bounds_qual stars startIdx startStar acc (cand i) hq)
        · exact (ih).2 i hit hq

lemma searchStep_noqual (stars : List Star) (startIdx : ℕ) (startStar : Star)
    (acc : ℤ × Option ℚ) (rc : ℚ)
    (h : ¬ qualifies stars startIdx startStar (candIdx stars.length rc)) :
    searchStep stars startIdx startStar acc rc = acc := by
  unfold searchStep
  dsimp only
  by_cases he : candIdx stars.length rc = startIdx
  · rw [if_pos he]
  · rw [if_neg he]
    cases hg : stars.get? (candIdx stars.length rc) with
    | none => rfl
    | some s2 =>
        dsimp only
        rw [if_neg ?_]
        intro hcond
        exact h ⟨he, s2, hg, hcond.1, hcond.2.2⟩

lemma connSearch_foldl_noqual (stars : List Star) (startIdx : ℕ) (startStar : Star)
    (cand : ℕ → ℚ) :
    ∀ (l : List ℕ) (acc : ℤ × Option ℚ),
      (∀ i ∈ l, ¬ qualifies stars startIdx startStar (candIdx stars.length (cand i))) →
      l.foldl (fun a i => searchStep stars startIdx startStar a (cand i)) acc = acc
  | [], acc, _ => rfl
  | j :: t, acc, h => by
      simp only [List.foldl_cons]
      rw [searchStep_noqual stars startIdx startStar acc (cand j)
        (h j (List.mem_cons_self _ _))]
      exact connSearch_foldl_noqual stars startIdx startStar cand t acc
        (fun i hi => h i (List.mem_cons_of_mem _ hi))

/-- Claim C9: when a spawn attempt creates a connection, its start
star exists with depth strictly between 0.5 and 3.0; its end index was
one of the at most 20 examined candidates; the end star exists, meets
the squared-distance and depth-difference conditions, and is nearest
among all examined qualifying candidates; the new connection has
life 0, state growing, and maxLife in [0.6, 1.0].  If no examined
candidate qualifies, no connection is created. -/
theorem spawn_connection_spec (stars : List Star) (r : SpawnRand)
    (hm0 : 0 ≤ r.maxLife) (hm1 : r.maxLife < 1) :
    (∀ c : Connection, spawnConnection stars r = some c →
      c.life = 0 ∧ c.state = ConnState.growing ∧
      0.6 ≤ c.maxLife ∧ c.maxLife ≤ 1 ∧
      c.startIdx = candIdx stars.length r.start ∧
      ∃ startStar, stars.get? c.startIdx = some startStar ∧
        0.5 < startStar.z ∧ startStar.z < 3 ∧
        (∃ i, i < 20 ∧ c.endIdx = candIdx stars.length (r.cand i)) ∧
        ∃ endStar, stars.get? c.endIdx = some endStar ∧
          c.endIdx ≠ c.startIdx ∧
          sqDist startStar endStar < 50000 * startStar.z ∧
          |startStar.z - endStar.z| < 0.5 ∧
          ∀ i, i < 20 →
            qualifies stars c.startIdx startStar (candIdx stars.length (r.cand i)) →
            sqDist startStar endStar ≤ distAt stars startStar (candIdx stars.length (r.cand i))) ∧
    (∀ startStar, stars.get? (candIdx stars.length r.start) = some startStar →
      (∀ i, i < 20 →
        ¬ qualifies stars (candIdx stars.length r.start) startStar
          (candIdx stars.length (r.cand i))) →
      spawnConnection stars r = none) := by
  constructor
  · intro c h
    unfold spawnConnection at h
    dsimp only at h
    cases hg : stars.get? (candIdx stars.length r.start) with
    | none =>
        rw [hg] at h
        exact Option.noConfusion h
    | some startStar =>
        rw [hg] at h
        dsimp only at h
        by_cases hz : startStar.z < 3 ∧ 0.5 < startStar.z
        · rw [if_pos hz] at h
          by_cases hne : (connSearch stars (candIdx stars.length r.start) startStar r.cand).1 ≠ -1
          · rw [if_pos hne] at h
            have hc := (Option.some.inj h).symm
            have hgood : searchGood stars (candIdx stars.length r.start) startStar
                (fun c0 => False ∨ ∃ i ∈ List.range 20,
                  c0 = candIdx stars.length (r.cand i))
                (connSearch stars (candIdx stars.length r.start) startStar r.cand) :=
              connSearch_foldl_good stars (candIdx stars.length r.start) startStar r.cand
                (List.range 20) (-1, none) (fun _ => False) (Or.inl rfl)
            rcases hgood with hnull | ⟨c0, hP, hqual, h1, h2⟩
            · exact absurd (by rw [hnull]) hne
            · rcases hP with hF | ⟨i, hi, hci⟩
              · exact absurd hF (fun hf => hf)
              · obtain ⟨hne0, s2, hgs2, hd, hzz⟩ := hqual
                have hbounds := (connSearch_foldl_bounds stars
                  (candIdx stars.length r.start) startStar r.cand (List.range 20)
                  (-1, none)).2
                subst hc
                refine ⟨rfl, rfl, by dsimp only; nlinarith, by dsimp only; nlinarith,
                  rfl, startStar, hg, hz.2, hz.1, ?_, s2, ?_, ?_, hd, hzz, ?_⟩
                · refine ⟨i, List.mem_range.mp hi, ?_⟩
                  dsimp only
                  rw [h1, hci]
                  exact (Int.toNat_natCast _).symm ▸ rfl
                · dsimp only
                  rw [h1, hci]
                  rw [Int.toNat_natCast]
                  rw [← hci]
                  exact hgs2
                · dsimp only
                  rw [h1, Int.toNat_natCast]
                  exact hne0
                · intro j hj hqj
                  have hb := hbounds j (List.mem_range.mpr hj) hqj
                  have hb2 : boundsBy
                      (connSearch stars (candIdx stars.length r.start) startStar r.cand).2
                      (distAt stars startStar (candIdx stars.length (r.cand j))) := hb
                  rw [h2] at hb2
                  have hda : distAt stars startStar c0 = sqDist startStar s2 := by
                    simp only [distAt, hgs2]
                  rw [hda] at hb2
                  simpa [boundsBy] using hb2
          · rw [if_neg hne] at h
            exact Option.noConfusion h
        · rw [if_neg hz] at h
          exact Option.noConfusion h
  · intro startStar hg hnoq
    unfold spawnConnection
    dsimp only
    rw [hg]
    dsimp only
    by_cases hz : startStar.z < 3 ∧ 0.5 < startStar.z
    · rw [if_pos hz]
      have hfold : connSearch stars (candIdx stars.length r.start) startStar r.cand
          = (-1, none) := by
        unfold connSearch
        exact connSearch_foldl_noqual stars (candIdx stars.length r.start) startStar r.cand
          (List.range 20) (-1, none)
          (fun i hi => hnoq i (List.mem_range.mp hi))
      rw [hfold]
      simp
    · rw [if_neg hz]

/-- Mid-field start star for a concrete spawn scenario. -/
def demoStarA : Star :=
  { x := 0, y := 0, z := 1, size := 1, baseOpacity := 0.5, opacity := 0.5
    twinkleSpeed := 0.01, clusterNodes := none }

/-- Nearby candidate star for the concrete spawn scenario. -/
def demoStarB : Star :=
  { x := 10, y := 0, z := 1, size := 1, baseOpacity := 0.5, opacity := 0.5
    twinkleSpeed := 0.01, clusterNodes := none }

def demoStars : List Star := [demoStarA, demoStarB]

def demoSpawnRand : SpawnRand := { start := 0, cand := fun _ => 0.5, maxLife := 0 }

def demoConn : Connection :=
  { startIdx := 0, endIdx := 1, life := 0, state := ConnState.growing, maxLife := 0.6 }

lemma foldl_fix {α β : Type} (f : α → β → α) (a : α) (hfix : ∀ b, f a b = a) :
    ∀ l : List β, l.foldl f a = a
  | [] => rfl
  | b :: t => by
      rw [List.foldl_cons, hfix b]
      exact foldl_fix f a hfix t

lemma demo_searchStep_first :
    searchStep demoStars 0 demoStarA ((-1 : ℤ), (none : Option ℚ)) 0.5 = (1, some 100) := by
  norm_num [searchStep, candIdx, sqDist, ltInf, demoStars, demoStarA, demoStarB]

lemma demo_searchStep_fix :
    searchStep demoStars 0 demoStarA ((1 : ℤ), some (100 : ℚ)) 0.5 = (1, some 100) := by
  norm_num [searchStep, candIdx, sqDist, ltInf, demoStars, demoStarA, demoStarB]

lemma demo_connSearch :
    connSearch demoStars 0 demoStarA (fun _ => (0.5 : ℚ)) = (1, some 100) := by
  unfold connSearch
  rw [List.range_succ_eq_map, List.foldl_cons]
  dsimp only
  rw [demo_searchStep_first]
  exact foldl_fix _ _ (fun b => demo_searchStep_fix) _

lemma demo_spawn : spawnConnection demoStars demoSpawnRand = some demoConn := by
  unfold spawnConnection
  dsimp only
  have hidx : candIdx demoStars.length demoSpawnRand.start = 0 := by
    norm_num [candIdx, demoStars, demoSpawnRand]
  rw [hidx]
  rw [show demoStars.get? 0 = some demoStarA from rfl]
  dsimp only
  rw [if_pos (by norm_num [demoStarA] : demoStarA.z < 3 ∧ 0.5 < demoStarA.z)]
  rw [show demoSpawnRand.cand = fun _ => (0.5 : ℚ) from rfl]
  rw [demo_connSearch]
  norm_num [demoConn, demoSpawnRand]

theorem spawn_connection_spec_witness :
    spawnConnection demoStars demoSpawnRand = some demoConn ∧
    demoConn.life = 0 ∧ demoConn.state = ConnState.growing ∧
    0.6 ≤ demoConn.maxLife ∧ demoConn.maxLife ≤ 1 := by
  have h := (spawn_connection_spec demoStars demoSpawnRand
    (by norm_num [demoSpawnRand]) (by norm_num [demoSpawnRand])).1 demoConn demo_spawn
  exact ⟨demo_spawn, h.1, h.2.1, h.2.2.1, h.2.2.2.1⟩

/-- Planet point record (PlanetCanvas.tsx lines 29-37), over the
reals since the construction uses trigonometric functions. -/
structure PlanetPoint where
  x : ℝ
  y : ℝ
  z : ℝ
  baseX : ℝ
  baseY : ℝ
  baseZ : ℝ
  noise : ℝ

/-- Construction of the planet point with index i (loop body of
initPlanet, PlanetCanvas.tsx lines 119-135); the noise function
models the per-point Math.random() draw. -/
noncomputable def mkPlanetPoint (width height : ℝ) (noise : ℕ → ℝ) (i : ℕ) : PlanetPoint :=
  let minDim := min width height
  let radius := minDim * 0.30
  let phi := Real.pi * (3 - Real.sqrt 5)
  let y : ℝ := 1 - ((i : ℝ) / ((1400 : ℝ) - 1)) * 2
  let r := Real.sqrt (1 - y * y)
  let theta := phi * (i : ℝ)
  let x := Real.cos theta * r
  let z := Real.sin theta * r
  { x := x * radius
    y := y * radius
    z := z * radius
    baseX := x * radius
    baseY := y * radius
    baseZ := z * radius
    noise := noise i }

/-- Planet point cloud generation (initPlanet, PlanetCanvas.tsx
lines 108-138). -/
noncomputable def initPlanet (width height : ℝ) (noise : ℕ → ℝ) : List PlanetPoint :=
  (List.range 1400).map (mkPlanetPoint width height noise)

lemma mkPlanetPoint_normSq (w h : ℝ) (noise : ℕ → ℝ) (i : ℕ) (hi : i < 1400) :
    (mkPlanetPoint w h noise i).baseX ^ 2 + (mkPlanetPoint w h noise i).baseY ^ 2 +
      (mkPlanetPoint w h noise i).baseZ ^ 2 = (min w h * 0.30) ^ 2 := by
  unfold mkPlanetPoint
  dsimp only
  have hile : (i : ℝ) ≤ 1399 := by
    exact_mod_cast Nat.le_of_lt_succ hi
  have hi0 : (0 : ℝ) ≤ (i : ℝ) := Nat.cast_nonneg i
  set y : ℝ := 1 - ((i : ℝ) / ((1400 : ℝ) - 1)) * 2 with hy
  have hyub : y ≤ 1 := by
    rw [hy]
    have hq : 0 ≤ ((i : ℝ) / ((1400 : ℝ) - 1)) * 2 := by positivity
    linarith
  have hylb : -1 ≤ y := by
    rw [hy]
    have h1 : (i : ℝ) / ((1400 : ℝ) - 1) ≤ 1 := by
      rw [div_le_one (by norm_num)]
      linarith
    linarith
  have hynn : 0 ≤ 1 - y * y := by nlinarith
  have hr : Real.sqrt (1 - y * y) ^ 2 = 1 - y * y := Real.sq_sqrt hynn
  have hcs : Real.sin (Real.pi * (3 - Real.sqrt 5) * (i : ℝ)) ^ 2 +
      Real.cos (Real.pi * (3 - Real.sqrt 5) * (i : ℝ)) ^ 2 = 1 :=
    Real.sin_sq_add_cos_sq _
  set r : ℝ := Real.sqrt (1 - y * y)
  set c : ℝ := Real.cos (Real.pi * (3 - Real.sqrt 5) * (i : ℝ))
  set s : ℝ := Real.sin (Real.pi * (3 - Real.sqrt 5) * (i : ℝ))
  linear_combination ((min w h * 0.30) ^ 2 * r ^ 2) * hcs + (min w h * 0.30) ^ 2 * hr

lemma initPlanet_norm (w h : ℝ) (noise : ℕ → ℝ) (hw : 0 ≤ w) (hh : 0 ≤ h) :
    ∀ p ∈ initPlanet w h noise,
      Real.sqrt (p.baseX ^ 2 + p.baseY ^ 2 + p.baseZ ^ 2) = 0.30 * min w h := by
  intro p hp
  obtain ⟨i, hi, hpi⟩ := List.mem_map.mp hp
  subst hpi
  rw [mkPlanetPoint_normSq w h noise i (List.mem_range.mp hi)]
  have hR : (0 : ℝ) ≤ min w h * 0.30 := mul_nonneg (le_min hw hh) (by norm_num)
  rw [Real.sqrt_sq hR]
  ring

/-- Claim C6: initPlanet always produces exactly 1400 points; the
point at index i realizes the Fibonacci-sphere formula scaled by the
radius 0.30 * min(W, H); consequently every base position's Euclidean
norm equals that radius (exactly, over the reals). -/
theorem init_planet_sphere_spec (w h : ℝ) (noise : ℕ → ℝ) (hw : 0 ≤ w) (hh : 0 ≤ h) :
    (initPlanet w h noise).length = 1400 ∧
    (∀ i, i < 1400 →
      (initPlanet w h noise).get? i = some (mkPlanetPoint w h noise i) ∧
      (mkPlanetPoint w h noise i).baseY =
        (1 - ((i : ℝ) / ((1400 : ℝ) - 1)) * 2) * (min w h * 0.30) ∧
      (mkPlanetPoint w h noise i).baseX =
        Real.cos (Real.pi * (3 - Real.sqrt 5) * (i : ℝ)) *
          Real.sqrt (1 - (1 - ((i : ℝ) / ((1400 : ℝ) - 1)) * 2) *
            (1 - ((i : ℝ) / ((1400 : ℝ) - 1)) * 2)) * (min w h * 0.30) ∧
      (mkPlanetPoint w h noise i).baseZ =
        Real.sin (Real.pi * (3 - Real.sqrt 5) * (i : ℝ)) *
          Real.sqrt (1 - (1 - ((i : ℝ) / ((1400 : ℝ) - 1)) * 2) *
            (1 - ((i : ℝ) / ((1400 : ℝ) - 1)) * 2)) * (min w h * 0.30)) ∧
    (∀ p ∈ initPlanet w h noise,
      Real.sqrt (p.baseX ^ 2 + p.baseY ^ 2 + p.baseZ ^ 2) = 0.30 * min w h) := by
  refine ⟨by simp [initPlanet], ?_, initPlanet_norm w h noise hw hh⟩
  intro i hi
  refine ⟨?_, rfl, rfl, rfl⟩
  simp only [initPlanet, List.get?_eq_getElem?, List.getElem?_map, List.getElem?_range hi,
    Option.map_some']

theorem init_planet_sphere_spec_witness :
    (initPlanet 1 1 (fun _ => 0)).length = 1400 :=
  (init_planet_sphere_spec 1 1 (fun _ => 0) (by norm_num) (by norm_num)).1

/-- Per-frame rotation of a planet point about the vertical axis
(PlanetCanvas.tsx lines 217-219). -/
noncomputable def rotatePoint (rot : ℝ) (p : PlanetPoint) : ℝ × ℝ × ℝ :=
  (p.baseX * Real.cos rot - p.baseZ * Real.sin rot,
   p.baseY,
   p.baseX * Real.sin rot + p.baseZ * Real.cos rot)

/-- Claim C10: the per-frame rotation is an isometry — every rotated
planet position has the same squared norm as its base position, so
every rotated point of the generated cloud still lies on the sphere of
radius 0.30 * min(W, H). -/
theorem rotation_isometry_spec :
    (∀ (rot : ℝ) (p : PlanetPoint),
      (rotatePoint rot p).1 ^ 2 + (rotatePoint rot p).2.1 ^ 2 + (rotatePoint rot p).2.2 ^ 2 =
        p.baseX ^ 2 + p.baseY ^ 2 + p.baseZ ^ 2) ∧
    (∀ (rot w h : ℝ) (noise : ℕ → ℝ), 0 ≤ w → 0 ≤ h →
      ∀ p ∈ initPlanet w h noise,
        Real.sqrt ((rotatePoint rot p).1 ^ 2 + (rotatePoint rot p).2.1 ^ 2 +
          (rotatePoint rot p).2.2 ^ 2) = 0.30 * min w h) := by
  have hpres : ∀ (rot : ℝ) (p : PlanetPoint),
      (rotatePoint rot p).1 ^ 2 + (rotatePoint rot p).2.1 ^ 2 + (rotatePoint rot p).2.2 ^ 2 =
        p.baseX ^ 2 + p.baseY ^ 2 + p.baseZ ^ 2 := by
    intro rot p
    unfold rotatePoint
    dsimp only
    have hcs := Real.sin_sq_add_cos_sq rot
    linear_combination (p.baseX ^ 2 + p.baseZ ^ 2) * hcs
  refine ⟨hpres, ?_⟩
  intro rot w h noise hw hh p hp
  rw [hpres rot p]
  exact initPlanet_norm w h noise hw hh p hp

theorem rotation_isometry_spec_witness :
    Real.sqrt ((rotatePoint 1 (mkPlanetPoint 1 1 (fun _ => 0) 0)).1 ^ 2 +
      (rotatePoint 1 (mkPlanetPoint 1 1 (fun _ => 0) 0)).2.1 ^ 2 +
      (rotatePoint 1 (mkPlanetPoint 1 1 (fun _ => 0) 0)).2.2 ^ 2) = 0.30 * min 1 1 :=
  rotation_isometry_spec.2 1 1 1 (fun _ => 0) (by norm_num) (by norm_num)
    (mkPlanetPoint 1 1 (fun _ => 0) 0)
    (List.mem_map.mpr ⟨0, List.mem_range.mpr (by norm_num), rfl⟩)

end Planetaria
